import Mathlib

/-!
Shallow embedding of the plank export-resolution pipeline.

The Rust sources embedded here are:
* `src/generate/bind_graph_init.rs` — binding-graph initialization
  (`NodeInitSession` and its helpers);
* `src/structures.rs` — `ModuleInfo` and the `Type` descriptor sum;
* `src/generate/emit.rs` — the emission traversal (`traverse`) and the
  JSON emission wrapper (`emit`);
* `src/emit.rs` / `src/main.rs` — output-path construction and CLI exit
  behaviour.

Modelling conventions:
* `JsWord` (swc interned string) and `CanonPath` (canonicalized absolute
  path used as a module identity) are both modelled as `String`.
* Rust `HashMap` values are modelled as association lists observed only
  through `List.lookup`; `HashSet` is modelled as `Finset`, because a
  hash set's observable content is its membership (iteration order is
  unspecified and unrelated to insertion order).
* Code that panics (`unreachable!`, `todo!`) is modelled by the
  `panicked` constructor of `PResult`, distinct from typed errors.
-/

namespace Plank

abbrev JsWord := String
abbrev CanonPath := String
abbrev Span := Nat

/-- Unsupported-feature tags; the closed set from the error taxonomy. -/
inductive UnsupportedFeature where
  | DefaultExport
  | DefaultImport
  | NamespaceExport
  | NamespaceImport
  | ExportEquals
  | ImportEquals
  | TsNamespace
  deriving DecidableEq, Repr

inductive BindGenErrorKind where
  | UnsupportedFeature (f : UnsupportedFeature)
  deriving DecidableEq, Repr

/-- A typed binding-generation error: module path, kind, and source span. -/
structure BindGenError where
  module_path : CanonPath
  kind : BindGenErrorKind
  span : Span
  deriving DecidableEq, Repr

/-- Per-symbol scope entry (`ItemState` in `generate/structures.rs` as used
by `bind_graph_init.rs`). -/
inductive ItemState where
  | Rooted
  | Imported (source : CanonPath) (src_key : JsWord) (as_key : JsWord)
  deriving DecidableEq, Repr

/-- Ordered import edges (`enum Import` in `bind_graph_init.rs`). -/
inductive Import where
  | NamedType (source : CanonPath) (src_key : JsWord)
  | NamedValue (source : CanonPath) (src_key : JsWord)
  | Named (source : CanonPath) (src_key : JsWord)
  deriving DecidableEq, Repr

/-- Ordered export edges (`enum Export` in `bind_graph_init.rs`). -/
inductive Export where
  | NamedType (source : CanonPath) (src_key : JsWord) (export_key : JsWord)
  | NamedValue (source : CanonPath) (src_key : JsWord) (export_key : JsWord)
  | Named (source : CanonPath) (src_key : JsWord) (export_key : JsWord)
  | All (source : CanonPath)
  deriving DecidableEq, Repr

/-- `Export::export_source` from `bind_graph_init.rs`. -/
def Export.export_source : Export → CanonPath
  | .NamedType source _ _ => source
  | .NamedValue source _ _ => source
  | .Named source _ _ => source
  | .All source => source

/-- A graph vertex (`ModuleNode` in `bind_graph_init.rs`); the rooted
export keys are `HashSet`s, hence `Finset`s here. -/
structure ModuleNode where
  path : CanonPath
  rooted_export_types : Finset JsWord
  rooted_export_values : Finset JsWord
  deriving DecidableEq

inductive ScopeKind where
  | Value
  | Type
  | ValueType
  deriving DecidableEq, Repr

/-- Result of running code that may return a typed error or panic. -/
inductive PResult (ε α : Type) where
  | ok (a : α)
  | error (e : ε)
  | panicked (msg : String)
  deriving DecidableEq, Repr

def PResult.bindR : PResult ε α → (α → PResult ε β) → PResult ε β
  | .ok a, f => f a
  | .error e, _ => .error e
  | .panicked m, _ => .panicked m

/- ## AST fragment (swc_ecma_ast shapes matched by bind_graph_init.rs) -/

inductive Pat where
  | Ident (sym : JsWord)
  | Other
  deriving DecidableEq, Repr

inductive Decl where
  | Class (ident : JsWord)
  | Fn (ident : JsWord)
  | Var (decls : List Pat)
  | TsInterface (id : JsWord)
  | TsTypeAlias (id : JsWord)
  | TsEnum (id : JsWord)
  | TsModule (id : JsWord) (span : Span)
  deriving DecidableEq, Repr

inductive ImportSpecifier where
  | Named (localName : JsWord) (imported : Option JsWord) (span : Span)
  | Default (span : Span)
  | Namespace (span : Span)
  deriving DecidableEq, Repr

inductive ExportSpecifier where
  | Named (orig : JsWord) (exported : Option JsWord)
  | Namespace (span : Span)
  | Default (span : Span)
  deriving DecidableEq, Repr

inductive Stmt where
  | Decl (d : Decl)
  | Other
  deriving DecidableEq, Repr

inductive ModuleDecl where
  | Import (src : String) (specifiers : List ImportSpecifier) (span : Span)
  | ExportDecl (decl : Decl)
  | ExportNamed (specifiers : List ExportSpecifier) (src : Option String) (span : Span)
  | ExportAll (src : String) (span : Span)
  | ExportDefaultDecl (span : Span)
  | ExportDefaultExpr (span : Span)
  | TsImportEquals (span : Span)
  | TsExportAssignment (span : Span)
  | TsNamespaceExport (span : Span)
  deriving DecidableEq, Repr

inductive ModuleItem where
  | ModuleDecl (d : ModuleDecl)
  | Stmt (s : Stmt)
  deriving DecidableEq, Repr

/- ## NodeInitSession (bind_graph_init.rs) -/

/-- The per-module init session state (`NodeInitSession`).  Scopes are
`HashMap<JsWord, ItemState>` in the source, observed only through `get`
and vacant-entry insertion; modelled as association lists. -/
structure Session where
  path : CanonPath
  dependency_map : List (String × CanonPath)
  import_edges : List Import
  export_edges : List Export
  rooted_values : Finset JsWord
  rooted_types : Finset JsWord
  value_scope : List (JsWord × ItemState)
  type_scope : List (JsWord × ItemState)

def initSession (path : CanonPath) (deps : List (String × CanonPath)) : Session :=
  { path := path
    dependency_map := deps
    import_edges := []
    export_edges := []
    rooted_values := ∅
    rooted_types := ∅
    value_scope := []
    type_scope := [] }

/-- Modelled from the spec: the `get_dep_src!` macro lives in `macros.rs`,
which is not under `src/`.  It resolves an import-specifier string through
the module's dependency map; the cache stage (§4.1) guarantees every
specifier of a cached module is resolved, an unresolved one being fatal
there, so the failure branch is modelled as an abort. -/
def getDepSrc (s : Session) (src : String) : PResult BindGenError CanonPath :=
  match s.dependency_map.lookup src with
  | some p => .ok p
  | none => .panicked "get_dep_src: unmapped module specifier"

/-- Vacant-entry insertion: first declaration wins, later ones are
silently ignored (`scope_item`'s `Entry` match arms). -/
def scope_insert (scope : List (JsWord × ItemState)) (name : JsWord)
    (state : ItemState) : List (JsWord × ItemState) :=
  match scope.lookup name with
  | some _ => scope
  | none => (name, state) :: scope

/-- `NodeInitSession::scope_item`. -/
def scope_item (s : Session) (name : JsWord) (state : ItemState)
    (kind : ScopeKind) : Session :=
  match kind with
  | .Value => { s with value_scope := scope_insert s.value_scope name state }
  | .Type => { s with type_scope := scope_insert s.type_scope name state }
  | .ValueType =>
      { s with
        type_scope := scope_insert s.type_scope name state
        value_scope := scope_insert s.value_scope name state }

/-- The per-symbol body of the `for symbol in symbols` loop at the end of
`NodeInitSession::process_decl`: root the symbol if exported, then scope
it as `Rooted`. -/
def applySymbol (s : Session) (sym : JsWord) (kind : ScopeKind)
    (isExport : Bool) : Session :=
  match kind with
  | .Value =>
      let s := if isExport then { s with rooted_values := insert sym s.rooted_values } else s
      scope_item s sym .Rooted .Value
  | .Type =>
      let s := if isExport then { s with rooted_types := insert sym s.rooted_types } else s
      scope_item s sym .Rooted .Type
  | .ValueType =>
      let s :=
        if isExport then
          { s with
            rooted_types := insert sym s.rooted_types
            rooted_values := insert sym s.rooted_values }
        else s
      scope_item s sym .Rooted .ValueType

/-- The `Decl::Var` arm of `process_decl` collects simple identifier
patterns and hits `todo!("Handle all patterns")` on anything else. -/
def collectVarSyms : List Pat → PResult BindGenError (List JsWord)
  | [] => .ok []
  | .Ident sym :: rest => (collectVarSyms rest).bindR fun syms => .ok (sym :: syms)
  | .Other :: _ => .panicked "Handle all patterns"

/-- `NodeInitSession::process_decl`.  Note the `Decl::TsModule` arm of the
source is `todo!("TS modules not suppported: ...")`, i.e. a panic, not a
typed error. -/
def process_decl (s : Session) (d : Decl) (isExport : Bool) :
    PResult BindGenError Session :=
  match d with
  | .Class ident => .ok (applySymbol s ident .ValueType isExport)
  | .Fn ident => .ok (applySymbol s ident .Value isExport)
  | .Var decls =>
      match collectVarSyms decls with
      | .ok syms => .ok (syms.foldl (fun acc sym => applySymbol acc sym .Value isExport) s)
      | .error e => .error e
      | .panicked m => .panicked m
  | .TsInterface id => .ok (applySymbol s id .Type isExport)
  | .TsTypeAlias id => .ok (applySymbol s id .Type isExport)
  | .TsEnum id => .ok (applySymbol s id .Type isExport)
  | .TsModule id _span => .panicked ("TS modules not suppported: " ++ s.path ++ "::" ++ id)

/-- `NodeInitSession::prune_export_specifiers`: keep named specifiers (in
order), fail with a typed `NamespaceExport` error (at the specifier's own
span) or `DefaultExport` error (at the whole export's span) otherwise.
The result keeps just the named payload `(orig, exported)`, making the
`unreachable!("Invalid specifier should be pruned")` arms of the caller
unrepresentable. -/
def prune_export_specifiers (path : CanonPath) (expSpan : Span) :
    List ExportSpecifier → PResult BindGenError (List (JsWord × Option JsWord))
  | [] => .ok []
  | .Named orig exported :: rest =>
      (prune_export_specifiers path expSpan rest).bindR fun buff =>
        .ok ((orig, exported) :: buff)
  | .Namespace span :: _ =>
      .error { module_path := path
               kind := .UnsupportedFeature .NamespaceExport
               span := span }
  | .Default _ :: _ =>
      .error { module_path := path
               kind := .UnsupportedFeature .DefaultExport
               span := expSpan }

/-- The `Some(src)` branch of `process_named_export`: push one
`Export::Named` edge per specifier, in specifier order. -/
def pushFromEdges (s : Session) (source : CanonPath) :
    List (JsWord × Option JsWord) → Session
  | [] => s
  | (orig, exported) :: rest =>
      pushFromEdges
        { s with export_edges :=
            s.export_edges ++ [Export.Named source orig (exported.getD orig)] }
        source rest

/-- One specifier of the `None` (no `from` clause) branch of
`process_named_export`.  Faithful to the source: in the `Imported` arms
the pushed edge's `export_key` is the import's `as_key`, not the computed
`export_key` alias (which is used only by the `Rooted` arms). -/
def noFromExportStep (s : Session) (orig : JsWord) (exported : Option JsWord) : Session :=
  let export_key := exported.getD orig
  let s1 :=
    match s.value_scope.lookup orig with
    | some (.Imported source src_key as_key) =>
        { s with export_edges := s.export_edges ++ [Export.Named source src_key as_key] }
    | some .Rooted => { s with rooted_values := insert export_key s.rooted_values }
    | none => s
  match s1.type_scope.lookup orig with
  | some (.Imported source src_key as_key) =>
      { s1 with export_edges := s1.export_edges ++ [Export.Named source src_key as_key] }
  | some .Rooted => { s1 with rooted_types := insert export_key s1.rooted_types }
  | none => s1

def noFromExports (s : Session) : List (JsWord × Option JsWord) → Session
  | [] => s
  | (orig, exported) :: rest => noFromExports (noFromExportStep s orig exported) rest

/-- `NodeInitSession::process_named_export`. -/
def process_named_export (s : Session) (specifiers : List ExportSpecifier)
    (src : Option String) (span : Span) : PResult BindGenError Session :=
  match prune_export_specifiers s.path span specifiers with
  | .error e => .error e
  | .panicked m => .panicked m
  | .ok named =>
      match src with
      | some srcStr =>
          match getDepSrc s srcStr with
          | .ok p => .ok (pushFromEdges s p named)
          | .error e => .error e
          | .panicked m => .panicked m
      | none => .ok (noFromExports s named)

/-- `NodeInitSession::handle_import_specifier`.  Faithful to the source:
both the `Default` and the `Namespace` arm produce the `DefaultImport`
feature tag. -/
def handle_import_specifier (s : Session) (source : CanonPath)
    (spec : ImportSpecifier) : PResult BindGenError Session :=
  match spec with
  | .Named localName imported _span =>
      let src_key := imported.getD localName
      let as_key := localName
      let s := { s with import_edges := s.import_edges ++ [Import.Named source src_key] }
      let item := ItemState.Imported source src_key as_key
      .ok (scope_item s localName item .ValueType)
  | .Default span =>
      .error { module_path := s.path
               kind := .UnsupportedFeature .DefaultImport
               span := span }
  | .Namespace span =>
      .error { module_path := s.path
               kind := .UnsupportedFeature .DefaultImport
               span := span }

def handleImportSpecs (s : Session) (source : CanonPath) :
    List ImportSpecifier → PResult BindGenError Session
  | [] => .ok s
  | spec :: rest =>
      match handle_import_specifier s source spec with
      | .ok s2 => handleImportSpecs s2 source rest
      | .error e => .error e
      | .panicked m => .panicked m

/-- `NodeInitSession::process_module_decl`.  The five rejected
module-declaration forms are `unreachable!("Caught in bind init")` in the
source (the module cache rejects them first); reaching them is a panic. -/
def process_module_decl (s : Session) (d : ModuleDecl) : PResult BindGenError Session :=
  match d with
  | .Import src specifiers _span =>
      match getDepSrc s src with
      | .ok p => handleImportSpecs s p specifiers
      | .error e => .error e
      | .panicked m => .panicked m
  | .ExportDecl decl => process_decl s decl true
  | .ExportNamed specifiers src span => process_named_export s specifiers src span
  | .ExportAll src _span =>
      match getDepSrc s src with
      | .ok p => .ok { s with export_edges := s.export_edges ++ [Export.All p] }
      | .error e => .error e
      | .panicked m => .panicked m
  | .ExportDefaultDecl _ => .panicked "Caught in bind init"
  | .ExportDefaultExpr _ => .panicked "Caught in bind init"
  | .TsImportEquals _ => .panicked "Caught in bind init"
  | .TsExportAssignment _ => .panicked "Caught in bind init"
  | .TsNamespaceExport _ => .panicked "Caught in bind init"

/-- `NodeInitSession::process_stmt`. -/
def process_stmt (s : Session) (stmt : Stmt) : PResult BindGenError Session :=
  match stmt with
  | .Decl d => process_decl s d false
  | .Other => .ok s

/-- `NodeInitSession::process_module_item`. -/
def process_module_item (s : Session) (item : ModuleItem) : PResult BindGenError Session :=
  match item with
  | .ModuleDecl d => process_module_decl s d
  | .Stmt st => process_stmt s st

/-- The `for item in module_data.module_ast.body` loop of
`NodeInitSession::init`. -/
def processItems (s : Session) : List ModuleItem → PResult BindGenError Session
  | [] => .ok s
  | item :: rest =>
      match process_module_item s item with
      | .ok s2 => processItems s2 rest
      | .error e => .error e
      | .panicked m => .panicked m

/-- `NodeInitSession::init`: run the per-item walk over a module body and
package the resulting node and edge lists. -/
def initModule (path : CanonPath) (deps : List (String × CanonPath))
    (items : List ModuleItem) :
    PResult BindGenError (ModuleNode × List Export × List Import) :=
  match processItems (initSession path deps) items with
  | .ok s =>
      .ok ({ path := path
             rooted_export_types := s.rooted_types
             rooted_export_values := s.rooted_values },
           s.export_edges, s.import_edges)
  | .error e => .error e
  | .panicked m => .panicked m

/- ## Observation helpers for the binding-graph claims -/

/-- The export-edge list of a successful session result. -/
def edgesOf : PResult BindGenError Session → Option (List Export)
  | .ok s => some s.export_edges
  | _ => none

/-- The unsupported-feature tag of a result, when it is a typed error. -/
def featureOf : PResult BindGenError Session → Option UnsupportedFeature
  | .error e => match e.kind with | .UnsupportedFeature f => some f
  | _ => none

/-- The export keys a declaration introduces, in declaration order. -/
def declExportKeys : Decl → List JsWord
  | .Class ident => [ident]
  | .Fn ident => [ident]
  | .Var decls => decls.filterMap fun p => match p with
      | .Ident sym => some sym
      | .Other => none
  | .TsInterface id => [id]
  | .TsTypeAlias id => [id]
  | .TsEnum id => [id]
  | .TsModule _ _ => []

/-- The export keys a top-level item declares, in source order (`export`ed
declarations and named export lists; `export *` contributes none that are
visible syntactically). -/
def itemExportKeys : ModuleItem → List JsWord
  | .ModuleDecl (.ExportDecl d) => declExportKeys d
  | .ModuleDecl (.ExportNamed specifiers _ _) =>
      specifiers.filterMap fun sp => match sp with
        | .Named orig exported => some (exported.getD orig)
        | _ => none
  | _ => []

/-- The sequence of export keys of a module body in source-declaration
order. -/
def exportKeysInSourceOrder (items : List ModuleItem) : List JsWord :=
  (items.map itemExportKeys).flatten

/- ## Type descriptors and ModuleInfo (src/structures.rs) -/

inductive PrimitiveType where
  | Boolean
  | Number
  | String
  | Void
  | Object
  | Any
  | Never
  deriving DecidableEq, Repr

/-- The `Type` descriptor sum of `structures.rs` (`FnType` inlined into the
`Fn` arm; `HashMap<String, Type>` fields as association lists). -/
inductive Typ where
  | Fn (origin : String) (params : List Typ) (return_type : Option Typ)
  | Class (name : String) (origin : String) (constructor : Typ)
      (fields : List (String × Typ))
  | Interface (origin : String) (fields : List (String × Typ))
  | Array (element : Typ) (rank : Nat)
  | Primitive (p : PrimitiveType)

/-- `HashMap::insert` observed through `lookup`: the new binding shadows
any earlier one. -/
def hmInsert (m : List (String × Typ)) (k : String) (v : Typ) : List (String × Typ) :=
  (k, v) :: m

/-- `ModuleInfo` of `structures.rs`. -/
structure ModuleInfo where
  path : String
  exported_types : List (String × Typ)
  exported_values : List (String × Typ)

/-- `ModuleInfo::export_value`. -/
def ModuleInfo.export_value (m : ModuleInfo) (export_key : String) (typ : Typ) : ModuleInfo :=
  { m with exported_values := hmInsert m.exported_values export_key typ }

/-- `ModuleInfo.export_type`. -/
def ModuleInfo.export_type (m : ModuleInfo) (export_key : String) (typ : Typ) : ModuleInfo :=
  { m with exported_types := hmInsert m.exported_types export_key typ }

/-- Outcome of `ModuleInfo::merge_export`, which returns `()` or panics. -/
inductive MergeOutcome where
  | panicked (msg : String)
  | ok (m : ModuleInfo)

def applyValueInsert (m : ModuleInfo) (k : String) : Option Typ → ModuleInfo
  | some v => m.export_value k v
  | none => m

def applyTypeInsert (m : ModuleInfo) (k : String) : Option Typ → ModuleInfo
  | some t => m.export_type k t
  | none => m

/-- `ModuleInfo::merge_export`: look `other_key` up in the other module's
value and type maps; panic when both lookups miss, otherwise copy whichever
bindings exist.  (As in the source, the `as_key` parameter is unused.) -/
def merge_export (self other : ModuleInfo) (other_key : String)
    (_as_key : Option String) : MergeOutcome :=
  match other.exported_values.lookup other_key, other.exported_types.lookup other_key with
  | none, none => .panicked ("Unknown export key " ++ other_key)
  | vOpt, tOpt => .ok (applyTypeInsert (applyValueInsert self other_key vOpt) other_key tOpt)

/- ## Typed graph and emission traversal (src/generate/emit.rs) -/

/-- Modelled from the spec: the typed module node is produced by
`typify_graph.rs`, which is not under `src/`.  Per §3 it is the module node
with "the two rooted sets become ordered mappings from export key to type
descriptor"; the ordered mappings are association lists here. -/
structure TypedModuleNode where
  path : CanonPath
  rooted_export_types : List (JsWord × Typ)
  rooted_export_values : List (JsWord × Typ)

/-- Modelled from the spec: the typed `ModuleGraph` of `typify_graph.rs`
(not under `src/`), as consumed by `traverse` in `generate/emit.rs`: a node
map and an export-edge map keyed by canonical path, observed through
`get`. -/
structure TypedGraph where
  nodes : List (CanonPath × TypedModuleNode)
  export_edges : List (CanonPath × List Export)

/-- `EmitConfig` (`generate/config.rs`, not under `src/`): which artifacts
the `opt!` blocks of `emit`/`traverse` produce. -/
structure EmitConfig where
  json : Bool
  js : Bool

/-- One emission call made by `traverse` into `JsonOutput`
(`json_emit.rs`, not under `src/`): modelled from the spec as the ordered
stream of exported (key, descriptor) entries. -/
inductive EmitEvent where
  | exportType (export_key : JsWord) (typ : Typ)
  | exportValue (export_key : JsWord) (typ : Typ)

/-- The JSON-output calls `traverse` makes for one visited node: the
node's rooted type entries then its rooted value entries, in list order,
when JSON emission is enabled. -/
def nodeEvents (cfg : EmitConfig) (node : TypedModuleNode) : List EmitEvent :=
  if cfg.json then
    node.rooted_export_types.map (fun kv => EmitEvent.exportType kv.1 kv.2)
      ++ node.rooted_export_values.map (fun kv => EmitEvent.exportValue kv.1 kv.2)
  else []

def prependVisit (cfg : EmitConfig) (p : CanonPath) (node : TypedModuleNode) :
    Option (List CanonPath × List EmitEvent) → Option (List CanonPath × List EmitEvent)
  | some (ord, evs) => some (p :: ord, nodeEvents cfg node ++ evs)
  | none => none

/-- The `while` loop of `traverse` in `generate/emit.rs`.  The stack is a
cons-list whose head is the Rust vector's top (`pop` takes the head; a
`push` is a cons, so the per-node `for edge in edges` loop is the `foldl`
below).  The `unwrap`ed node and edge lookups and fuel exhaustion are
modelled as `none`; the result is the visit order paired with the emission
stream. -/
def traverseLoop (nodes : List (CanonPath × TypedModuleNode))
    (edges : List (CanonPath × List Export)) (cfg : EmitConfig) :
    Nat → List CanonPath → List CanonPath →
    Option (List CanonPath × List EmitEvent)
  | 0, _, _ => none
  | _ + 1, [], _ => some ([], [])
  | fuel + 1, p :: rest, vis =>
      if vis.contains p then traverseLoop nodes edges cfg fuel rest vis
      else
        match nodes.lookup p, edges.lookup p with
        | some node, some es =>
            prependVisit cfg p node
              (traverseLoop nodes edges cfg fuel
                (es.foldl (fun st e => e.export_source :: st) rest) (p :: vis))
        | _, _ => none

def totalEdgeCount (g : TypedGraph) : Nat :=
  (g.export_edges.map (fun kv => kv.2.length)).sum

/-- Fuel bound: the loop pops at most the root plus one entry per edge of
a visited node, so this bound never runs out on a well-formed graph. -/
def fuelOf (g : TypedGraph) : Nat :=
  1 + g.nodes.length + totalEdgeCount g

/-- `traverse(options, root, typed_graph, context)` of `generate/emit.rs`. -/
def traverse (g : TypedGraph) (cfg : EmitConfig) (root : CanonPath) :
    Option (List CanonPath × List EmitEvent) :=
  traverseLoop g.nodes g.export_edges cfg (fuelOf g) [root] []

/-- The order in which `traverse` visits module nodes. -/
def traverseOrder (g : TypedGraph) (cfg : EmitConfig) (root : CanonPath) :
    Option (List CanonPath) :=
  (traverse g cfg root).map (fun pr => pr.1)

/- ## Output paths (src/generate/emit.rs `emit`, src/main.rs) -/

/-- A filesystem path as a list of components (`PathBuf`). -/
structure RPath where
  comps : List String
  deriving DecidableEq, Repr

/-- Index of the last '.' in a file name's characters, accumulator style. -/
def lastDotAux : List Char → Nat → Option Nat → Option Nat
  | [], _, acc => acc
  | c :: rest, i, acc => lastDotAux rest (i + 1) (if c == '.' then some i else acc)

/-- Rust's `Path::file_stem` / `extension` split of a file name: no '.'
(or only a leading '.') means no extension; otherwise split at the last
'.'. -/
def splitName (f : String) : String × Option String :=
  match lastDotAux f.toList 0 none with
  | none => (f, none)
  | some 0 => (f, none)
  | some (i + 1) =>
      (String.mk (f.toList.take (i + 1)), some (String.mk (f.toList.drop (i + 2))))

/-- `Path::file_stem` of a file name. -/
def fileStem (f : String) : String := (splitName f).1

/-- `PathBuf::set_extension` on a file name (with a non-empty extension):
the stem with the new extension appended. -/
def setExtension (f : String) (ext : String) : String :=
  (splitName f).1 ++ "." ++ ext

def RPath.push (p : RPath) (c : String) : RPath := ⟨p.comps ++ [c]⟩

def setExtComps : List String → String → List String
  | [], _ => []
  | [x], e => [setExtension x e]
  | c :: c2 :: rest, e => c :: setExtComps (c2 :: rest) e

/-- `PathBuf::set_extension` on a whole path: rewrite the final
component. -/
def RPath.setExt (p : RPath) (e : String) : RPath := ⟨setExtComps p.comps e⟩

/-- The JSON output path computed by `emit` in `generate/emit.rs`:
`output_path = outdir; output_path.push(file_name);
output_path.set_extension("arr.json")`, where `file_name` is the
`file_stem` override from the options or the root module path's
`file_stem`. -/
def emitJsonPath (outdir : RPath) (fileStemOverride : Option String)
    (rootFileName : String) : RPath :=
  let fname := match fileStemOverride with
    | some f => f
    | none => fileStem rootFileName
  RPath.setExt (RPath.push outdir fname) "arr.json"

/- ## Emission error flow (src/generate/emit.rs `emit`, src/generate.rs) -/

/-- An opaque `std::io::Error`. -/
structure IoErr where
  code : Nat
  deriving DecidableEq, Repr

/-- `EmitError` (`generate/error.rs`, not under `src/`): the two variants
`emit`'s JSON block constructs, each carrying the root module path. -/
inductive EmitError where
  | IoError (module_path : String) (err : IoErr)
  | JsonError (module_path : String) (err : Nat)
  deriving DecidableEq, Repr

/-- The JSON block of `emit` in `generate/emit.rs`, with the three
filesystem/serialization effects passed in as oracles:
`File::create(..).map_err(IoError)?`, then
`json_output.finalize().map_err(JsonError)?`, then
`file.write_all(..).map_err(IoError)?`. -/
def emitJsonFile (rootPath : String) (create : Except IoErr Unit)
    (finalizeRes : Except Nat String) (write : String → Except IoErr Unit) :
    Except EmitError Unit :=
  match create with
  | .error e => .error (.IoError rootPath e)
  | .ok _ =>
      match finalizeRes with
      | .error je => .error (.JsonError rootPath je)
      | .ok output =>
          match write output with
          | .error e => .error (.IoError rootPath e)
          | .ok _ => .ok ()

/-- The `match result` at the end of `gen` in `generate.rs`: an emission
error makes the process exit with code 1, success with 0. -/
def pipelineExitCode : Except EmitError Unit → Nat
  | .ok _ => 0
  | .error _ => 1

/- ## Module-cache rejections (bind_init.rs, spec §4.1) -/

/-- Modelled from the spec: `bind_init.rs` (module cache construction) is
not under `src/`.  Per §4.1 the cache stage records default export,
default-expression export, `export =`, `import =`, namespace export, and
TypeScript namespace/module blocks as unsupported-feature errors with the
module path and source span; the `unreachable!("Caught in bind init")`
arms of `process_module_decl` corroborate this for the five
module-declaration forms. -/
def bindInitScanItem (path : CanonPath) (item : ModuleItem) : Except BindGenError Unit :=
  match item with
  | .ModuleDecl (.ExportDefaultDecl span) =>
      .error { module_path := path, kind := .UnsupportedFeature .DefaultExport, span := span }
  | .ModuleDecl (.ExportDefaultExpr span) =>
      .error { module_path := path, kind := .UnsupportedFeature .DefaultExport, span := span }
  | .ModuleDecl (.TsExportAssignment span) =>
      .error { module_path := path, kind := .UnsupportedFeature .ExportEquals, span := span }
  | .ModuleDecl (.TsImportEquals span) =>
      .error { module_path := path, kind := .UnsupportedFeature .ImportEquals, span := span }
  | .ModuleDecl (.TsNamespaceExport span) =>
      .error { module_path := path, kind := .UnsupportedFeature .NamespaceExport, span := span }
  | .ModuleDecl (.ExportDecl (.TsModule _ span)) =>
      .error { module_path := path, kind := .UnsupportedFeature .TsNamespace, span := span }
  | .Stmt (.Decl (.TsModule _ span)) =>
      .error { module_path := path, kind := .UnsupportedFeature .TsNamespace, span := span }
  | _ => .ok ()

/- ## Concrete demonstration inputs -/

/-- A session whose value scope binds `X` as imported from `/a` under source
key `K` (the state `import { K as X } from "a"` produces). -/
def c1SessV : Session :=
  { initSession "/mod" [] with value_scope := [("X", ItemState.Imported "/a" "K" "X")] }

/-- A session whose type scope binds `T` as imported from `/b` under source
key `J`. -/
def c1SessT : Session :=
  { initSession "/mod" [] with type_scope := [("T", ItemState.Imported "/b" "J" "T")] }

/-- Module body `export class A; export class B` (in that order). -/
def itemsAB : List ModuleItem :=
  [ModuleItem.ModuleDecl (ModuleDecl.ExportDecl (Decl.Class "A")),
   ModuleItem.ModuleDecl (ModuleDecl.ExportDecl (Decl.Class "B"))]

/-- Module body `export class B; export class A` (the reverse order). -/
def itemsBA : List ModuleItem :=
  [ModuleItem.ModuleDecl (ModuleDecl.ExportDecl (Decl.Class "B")),
   ModuleItem.ModuleDecl (ModuleDecl.ExportDecl (Decl.Class "A"))]

/-- Module body `import { C } from "a"; export class C`. -/
def c8Items : List ModuleItem :=
  [ModuleItem.ModuleDecl (ModuleDecl.Import "a" [ImportSpecifier.Named "C" none 0] 0),
   ModuleItem.ModuleDecl (ModuleDecl.ExportDecl (Decl.Class "C"))]

/-- The session `c8Items` produces. -/
def c8Sess : Session :=
  match processItems (initSession "/m" [("a", "/a")]) c8Items with
  | .ok s => s
  | _ => initSession "" []

/-- Emit both artifacts. -/
def cfgBoth : EmitConfig := ⟨true, true⟩

/-- A three-module typed graph: the root's edge list points at `a` then at
`b`; `a` and `b` have no further edges. -/
def c3Graph : TypedGraph :=
  { nodes := [("root", ⟨"root", [], []⟩), ("a", ⟨"a", [], []⟩), ("b", ⟨"b", [], []⟩)]
    export_edges := [("root", [Export.NamedType "a" "x" "x", Export.NamedType "b" "y" "y"]),
                     ("a", []), ("b", [])] }

def c4NodeA : TypedModuleNode :=
  ⟨"a", [("T", Typ.Primitive .Number)], [("v", Typ.Primitive .String)]⟩

def c4NodeB : TypedModuleNode :=
  ⟨"b", [("U", Typ.Primitive .Boolean)], []⟩

/-- A two-module typed graph in one association-list representation. -/
def c4G1 : TypedGraph :=
  { nodes := [("a", c4NodeA), ("b", c4NodeB)]
    export_edges := [("a", [Export.NamedValue "b" "k" "k"]), ("b", [])] }

/-- The same typed graph with both association lists permuted: the same
map, in a different hash-bucket order. -/
def c4G2 : TypedGraph :=
  { nodes := [("b", c4NodeB), ("a", c4NodeA)]
    export_edges := [("b", []), ("a", [Export.NamedValue "b" "k" "k"])] }

end Plank

namespace Plank

/- ## Claim theorems -/

/-- C1: on `export { X as Y }` without a `from` clause, when `X` is bound in
a scope as `Imported { source, src_key, as_key }`, the pushed `Export::Named`
edge takes `source` and `src_key` from the import but its `export_key` is
the import's `as_key` — not the export alias `Y` the claim (and the spec)
require.  Both the value-scope and the type-scope lookup behave this way. -/
theorem c1_export_alias_bug_eval :
    edgesOf (process_named_export c1SessV [ExportSpecifier.Named "X" (some "Y")] none 0)
        = some [Export.Named "/a" "K" "X"]
    ∧ edgesOf (process_named_export c1SessT [ExportSpecifier.Named "T" (some "U")] none 0)
        = some [Export.Named "/b" "J" "T"]
    ∧ ¬ edgesOf (process_named_export c1SessV [ExportSpecifier.Named "X" (some "Y")] none 0)
        = some [Export.Named "/a" "K" "Y"] :=
  ⟨rfl, rfl, by decide⟩

/-- C5: each rejected construct — default export, default-expression
export, `export =`, `import =`, namespace export, and a TypeScript
namespace/module block — is rejected with a typed unsupported-feature
error carrying the module path and a source span.  The module-cache checks
are modelled from the spec (`bind_init.rs` is not in `src/`); the
export-specifier checks are the `prune_export_specifiers` code of
`bind_graph_init.rs`. -/
theorem c5_unsupported_rejections :
    (∀ path span, bindInitScanItem path (.ModuleDecl (.ExportDefaultDecl span)) =
        .error { module_path := path, kind := .UnsupportedFeature .DefaultExport, span := span })
    ∧ (∀ path span, bindInitScanItem path (.ModuleDecl (.ExportDefaultExpr span)) =
        .error { module_path := path, kind := .UnsupportedFeature .DefaultExport, span := span })
    ∧ (∀ path span, bindInitScanItem path (.ModuleDecl (.TsExportAssignment span)) =
        .error { module_path := path, kind := .UnsupportedFeature .ExportEquals, span := span })
    ∧ (∀ path span, bindInitScanItem path (.ModuleDecl (.TsImportEquals span)) =
        .error { module_path := path, kind := .UnsupportedFeature .ImportEquals, span := span })
    ∧ (∀ path span, bindInitScanItem path (.ModuleDecl (.TsNamespaceExport span)) =
        .error { module_path := path, kind := .UnsupportedFeature .NamespaceExport, span := span })
    ∧ (∀ path name span, bindInitScanItem path (.Stmt (.Decl (.TsModule name span))) =
        .error { module_path := path, kind := .UnsupportedFeature .TsNamespace, span := span })
    ∧ (∀ path name span, bindInitScanItem path (.ModuleDecl (.ExportDecl (.TsModule name span))) =
        .error { module_path := path, kind := .UnsupportedFeature .TsNamespace, span := span })
    ∧ (∀ path expSpan span rest,
        prune_export_specifiers path expSpan (ExportSpecifier.Namespace span :: rest) =
          .error { module_path := path, kind := .UnsupportedFeature .NamespaceExport, span := span })
    ∧ (∀ path expSpan span rest,
        prune_export_specifiers path expSpan (ExportSpecifier.Default span :: rest) =
          .error { module_path := path, kind := .UnsupportedFeature .DefaultExport, span := expSpan }) :=
  ⟨fun _ _ => rfl, fun _ _ => rfl, fun _ _ => rfl, fun _ _ => rfl, fun _ _ => rfl,
   fun _ _ _ => rfl, fun _ _ _ => rfl, fun _ _ _ _ => rfl, fun _ _ _ _ => rfl⟩

/-- C9: a namespace import specifier (`import * as N`) makes
`handle_import_specifier` fail with the `DefaultImport` feature tag, and no
input to the handler ever produces the `NamespaceImport` tag (every outcome
is either no unsupported-feature error at all or `DefaultImport`). -/
theorem c9_namespace_import_tag :
    (∀ (s : Session) (source : CanonPath) (span : Span),
        handle_import_specifier s source (ImportSpecifier.Namespace span)
          = .error { module_path := s.path
                     kind := .UnsupportedFeature .DefaultImport
                     span := span })
    ∧ ∀ (s : Session) (source : CanonPath) (spec : ImportSpecifier),
        featureOf (handle_import_specifier s source spec) = none
        ∨ featureOf (handle_import_specifier s source spec)
            = some UnsupportedFeature.DefaultImport := by
  refine ⟨fun _ _ _ => rfl, fun s source spec => ?_⟩
  cases spec <;> simp [handle_import_specifier, featureOf]

/-- C10: `ModuleInfo::merge_export` panics with message
`"Unknown export key <key>"` exactly when the key is missing from both the
`exported_values` and the `exported_types` map of the source module, and
its only other outcome is normal completion — there is no recoverable
error value. -/
theorem c10_merge_export_panic_iff :
    ∀ (self other : ModuleInfo) (other_key : String) (as_key : Option String),
      (merge_export self other other_key as_key
          = .panicked ("Unknown export key " ++ other_key)
        ↔ other.exported_values.lookup other_key = none
          ∧ other.exported_types.lookup other_key = none)
      ∧ (merge_export self other other_key as_key
            = .panicked ("Unknown export key " ++ other_key)
          ∨ ∃ m, merge_export self other other_key as_key = MergeOutcome.ok m) := by
  intro self other other_key as_key
  rcases hv : other.exported_values.lookup other_key with _ | v <;>
    rcases ht : other.exported_types.lookup other_key with _ | t <;>
      simp [merge_export, hv, ht]

/- ## Output-path lemmas (C6) -/

theorem lastDotAux_of_not_mem :
    ∀ (cs : List Char) (i : Nat) (acc : Option Nat), '.' ∉ cs →
      lastDotAux cs i acc = acc := by
  intro cs
  induction cs with
  | nil => intro i acc _; rfl
  | cons c rest ih =>
    intro i acc h
    simp only [List.mem_cons, not_or] at h
    obtain ⟨h1, h2⟩ := h
    have hc : (c == '.') = false := beq_eq_false_iff_ne.mpr (fun hcd => h1 hcd.symm)
    simp only [lastDotAux, hc, Bool.false_eq_true, if_false]
    exact ih _ _ h2

theorem splitName_of_no_dot (f : String) (h : '.' ∉ f.toList) :
    splitName f = (f, none) := by
  unfold splitName
  rw [lastDotAux_of_not_mem _ _ _ h]

theorem setExtension_of_no_dot (f e : String) (h : '.' ∉ f.toList) :
    setExtension f e = f ++ "." ++ e := by
  unfold setExtension
  rw [splitName_of_no_dot f h]

theorem setExtComps_concat :
    ∀ (cs : List String) (x e : String),
      setExtComps (cs ++ [x]) e = cs ++ [setExtension x e] := by
  intro cs
  induction cs with
  | nil => intro x e; rfl
  | cons c rest ih =>
    intro x e
    cases rest with
    | nil => rfl
    | cons r rs =>
      show c :: setExtComps ((r :: rs) ++ [x]) e = c :: ((r :: rs) ++ [setExtension x e])
      rw [ih]

/-- C6 (corrected): the emitted JSON artifact lands inside the output
directory under the root's file stem with extension `arr.json`; when the
stem is dot-free this is exactly `D/S.arr.json`.  (The counterexample shows
that for a stem containing a dot, such as the stem `root.d` of
`root.d.ts`, `set_extension` replaces the stem's trailing `.d`, so the
claim's `D/S.arr.json` does not hold in general.) -/
theorem c6_output_path_amended (outdir : RPath) (rootFileName : String)
    (h : ('.' : Char) ∉ (fileStem rootFileName).toList) :
    emitJsonPath outdir none rootFileName
      = ⟨outdir.comps ++ [fileStem rootFileName ++ ".arr.json"]⟩ := by
  show RPath.setExt (RPath.push outdir (fileStem rootFileName)) "arr.json" = _
  unfold RPath.push RPath.setExt
  rw [setExtComps_concat, setExtension_of_no_dot _ _ h, String.append_assoc]
  rfl

/-- C6 witness: on root module `root.ts` (dot-free stem `root`) and output
directory `out`, the artifact path is `out/root.arr.json`. -/
theorem c6_output_path_amended_witness :
    emitJsonPath ⟨["out"]⟩ none "root.ts" = ⟨["out", "root.arr.json"]⟩ :=
  c6_output_path_amended ⟨["out"]⟩ "root.ts" (by decide)

/-- C6 counterexample: the root module `root.d.ts` has file stem `root.d`,
but the artifact is written to `out/root.arr.json`, not the claim's
`out/root.d.arr.json` — `set_extension("arr.json")` replaces the `.d`
suffix of the pushed file name. -/
theorem c6_dot_stem_counterexample :
    fileStem "root.d.ts" = "root.d"
    ∧ emitJsonPath ⟨["out"]⟩ none "root.d.ts" = ⟨["out", "root.arr.json"]⟩
    ∧ ¬ emitJsonPath ⟨["out"]⟩ none "root.d.ts" = ⟨["out", "root.d.arr.json"]⟩ := by
  refine ⟨by decide, by decide, by decide⟩

/-- C7: in the JSON block of `emit`, a failing `write_all` is mapped to
`EmitError::IoError` carrying the module path (and `gen` then exits with
code 1), and emission can only return success when the write succeeded —
an output-write failure is never silently ignored. -/
theorem c7_write_failure_propagates (rootPath : String)
    (finalizeRes : Except Nat String) (write : String → Except IoErr Unit)
    (output : String) (e : IoErr)
    (hfin : finalizeRes = .ok output) (hw : write output = .error e) :
    emitJsonFile rootPath (.ok ()) finalizeRes write = .error (.IoError rootPath e)
    ∧ pipelineExitCode (emitJsonFile rootPath (.ok ()) finalizeRes write) = 1
    ∧ ∀ (create : Except IoErr Unit) (fin2 : Except Nat String)
        (w2 : String → Except IoErr Unit),
        emitJsonFile rootPath create fin2 w2 = .ok () →
          ∃ out2, fin2 = .ok out2 ∧ w2 out2 = .ok () := by
  subst hfin
  refine ⟨by simp [emitJsonFile, hw], by simp [emitJsonFile, hw, pipelineExitCode], ?_⟩
  intro create fin2 w2 hok
  rcases create with _ | u
  · simp [emitJsonFile] at hok
  · rcases hf : fin2 with _ | out2 <;> rw [hf] at hok
    · simp [emitJsonFile] at hok
    · rcases hw2 : w2 out2 with _ | u2 <;> simp [emitJsonFile, hw2] at hok
      exact ⟨out2, rfl, by rw [hw2]⟩

/-- C7 witness: with a write oracle that fails with error code 7, emission
returns `IoError` with the module path, and the pipeline exits 1. -/
theorem c7_write_failure_witness :
    emitJsonFile "/root.d.ts" (.ok ()) (.ok "json") (fun _ => .error ⟨7⟩)
        = .error (.IoError "/root.d.ts" ⟨7⟩)
    ∧ pipelineExitCode
        (emitJsonFile "/root.d.ts" (.ok ()) (.ok "json") (fun _ => .error ⟨7⟩)) = 1
    ∧ ∀ (create : Except IoErr Unit) (fin2 : Except Nat String)
        (w2 : String → Except IoErr Unit),
        emitJsonFile "/root.d.ts" create fin2 w2 = .ok () →
          ∃ out2, fin2 = .ok out2 ∧ w2 out2 = .ok () :=
  c7_write_failure_propagates "/root.d.ts" (.ok "json") (fun _ => .error ⟨7⟩)
    "json" ⟨7⟩ rfl rfl

/-- C8 counterexample: in `import { C } from "a"; export class C`, the
class's identifier is inserted into both rooted-export sets, but the scope
insertion is first-wins: both scopes still hold the earlier `Imported`
state, not the claimed `Rooted` entry. -/
theorem c8_shadowed_class_counterexample :
    processItems (initSession "/m" [("a", "/a")]) c8Items = .ok c8Sess
    ∧ c8Sess.value_scope.lookup "C" = some (ItemState.Imported "/a" "C" "C")
    ∧ c8Sess.type_scope.lookup "C" = some (ItemState.Imported "/a" "C" "C")
    ∧ c8Sess.rooted_values = {"C"}
    ∧ c8Sess.rooted_types = {"C"}
    ∧ ¬ c8Sess.value_scope.lookup "C" = some ItemState.Rooted :=
  ⟨rfl, rfl, rfl, by decide, by decide, by decide⟩

/-- C8 (corrected): processing `export class C` always inserts `C` into
both `rooted_export_values` and `rooted_export_types`, and attempts the
same `Rooted` state on both scopes through first-wins insertion: a scope
not yet binding `C` ends up with `Rooted`, a scope already binding `C` is
left unchanged. -/
theorem c8_class_export_amended :
    ∀ (s : Session) (c : JsWord),
      process_decl s (Decl.Class c) true = .ok
        { s with
          rooted_types := insert c s.rooted_types
          rooted_values := insert c s.rooted_values
          type_scope := scope_insert s.type_scope c .Rooted
          value_scope := scope_insert s.value_scope c .Rooted }
      ∧ (s.value_scope.lookup c = none →
          (scope_insert s.value_scope c .Rooted).lookup c = some ItemState.Rooted)
      ∧ (s.type_scope.lookup c = none →
          (scope_insert s.type_scope c .Rooted).lookup c = some ItemState.Rooted)
      ∧ (∀ st, s.value_scope.lookup c = some st →
          scope_insert s.value_scope c .Rooted = s.value_scope)
      ∧ (∀ st, s.type_scope.lookup c = some st →
          scope_insert s.type_scope c .Rooted = s.type_scope) := by
  intro s c
  refine ⟨rfl, ?_, ?_, ?_, ?_⟩
  · intro h; simp [scope_insert, h, List.lookup]
  · intro h; simp [scope_insert, h, List.lookup]
  · intro st h; simp [scope_insert, h]
  · intro st h; simp [scope_insert, h]

/- ## Edge-order lemmas (C2) -/

theorem scope_item_edges (s : Session) (n : JsWord) (st : ItemState) (k : ScopeKind) :
    (scope_item s n st k).export_edges = s.export_edges := by
  cases k <;> rfl

theorem applySymbol_edges (s : Session) (sym : JsWord) (k : ScopeKind) (ex : Bool) :
    (applySymbol s sym k ex).export_edges = s.export_edges := by
  cases k <;> cases ex <;> rfl

theorem foldl_applySymbol_edges (k : ScopeKind) (ex : Bool) :
    ∀ (syms : List JsWord) (s : Session),
      (syms.foldl (fun acc sym => applySymbol acc sym k ex) s).export_edges
        = s.export_edges := by
  intro syms
  induction syms with
  | nil => intro s; rfl
  | cons sym rest ih =>
    intro s
    simp only [List.foldl]
    rw [ih, applySymbol_edges]

theorem process_decl_edges (s : Session) (d : Decl) (ex : Bool) (r : Session)
    (h : process_decl s d ex = .ok r) : r.export_edges = s.export_edges := by
  cases d <;> simp only [process_decl] at h
  case Class i =>
    injection h with h2
    rw [← h2, applySymbol_edges]
  case Fn i =>
    injection h with h2
    rw [← h2, applySymbol_edges]
  case Var decls =>
    split at h
    · injection h with h2
      rw [← h2, foldl_applySymbol_edges]
    · exact absurd h (by simp)
    · exact absurd h (by simp)
  case TsInterface i =>
    injection h with h2
    rw [← h2, applySymbol_edges]
  case TsTypeAlias i =>
    injection h with h2
    rw [← h2, applySymbol_edges]
  case TsEnum i =>
    injection h with h2
    rw [← h2, applySymbol_edges]
  case TsModule i sp => exact absurd h (by simp)

theorem handle_import_specifier_edges (s : Session) (source : CanonPath)
    (spec : ImportSpecifier) (r : Session)
    (h : handle_import_specifier s source spec = .ok r) :
    r.export_edges = s.export_edges := by
  cases spec <;> simp only [handle_import_specifier] at h
  case Named localName imported sp =>
    injection h with h2
    rw [← h2, scope_item_edges]
  case Default sp => exact absurd h (by simp)
  case Namespace sp => exact absurd h (by simp)

theorem handleImportSpecs_edges (source : CanonPath) :
    ∀ (specs : List ImportSpecifier) (s r : Session),
      handleImportSpecs s source specs = .ok r →
        r.export_edges = s.export_edges := by
  intro specs
  induction specs with
  | nil =>
    intro s r h
    injection h with h2
    rw [← h2]
  | cons spec rest ih =>
    intro s r h
    simp only [handleImportSpecs] at h
    split at h
    · rename_i s2 hs
      rw [ih _ _ h, handle_import_specifier_edges s source spec s2 hs]
    · exact absurd h (by simp)
    · exact absurd h (by simp)

theorem noFromExportStep_edges (s : Session) (o : JsWord) (e : Option JsWord) :
    ∃ t, (noFromExportStep s o e).export_edges = s.export_edges ++ t := by
  rcases hv : s.value_scope.lookup o with _ | st
  · rcases ht : s.type_scope.lookup o with _ | st2
    · exact ⟨[], by simp [noFromExportStep, hv, ht]⟩
    · cases st2 with
      | Rooted => exact ⟨[], by simp [noFromExportStep, hv, ht]⟩
      | Imported src sk ak =>
        exact ⟨[Export.Named src sk ak], by simp [noFromExportStep, hv, ht]⟩
  · cases st with
    | Rooted =>
      rcases ht : s.type_scope.lookup o with _ | st2
      · exact ⟨[], by simp [noFromExportStep, hv, ht]⟩
      · cases st2 with
        | Rooted => exact ⟨[], by simp [noFromExportStep, hv, ht]⟩
        | Imported src sk ak =>
          exact ⟨[Export.Named src sk ak], by simp [noFromExportStep, hv, ht]⟩
    | Imported src sk ak =>
      rcases ht : s.type_scope.lookup o with _ | st2
      · exact ⟨[Export.Named src sk ak], by simp [noFromExportStep, hv, ht]⟩
      · cases st2 with
        | Rooted => exact ⟨[Export.Named src sk ak], by simp [noFromExportStep, hv, ht]⟩
        | Imported src2 sk2 ak2 =>
          exact ⟨[Export.Named src sk ak, Export.Named src2 sk2 ak2],
            by simp [noFromExportStep, hv, ht]⟩

theorem noFromExports_edges :
    ∀ (l : List (JsWord × Option JsWord)) (s : Session),
      ∃ t, (noFromExports s l).export_edges = s.export_edges ++ t := by
  intro l
  induction l with
  | nil => intro s; exact ⟨[], by simp [noFromExports]⟩
  | cons p rest ih =>
    intro s
    obtain ⟨o, e⟩ := p
    obtain ⟨t1, h1⟩ := noFromExportStep_edges s o e
    obtain ⟨t2, h2⟩ := ih (noFromExportStep s o e)
    exact ⟨t1 ++ t2, by
      show (noFromExports (noFromExportStep s o e) rest).export_edges = _
      rw [h2, h1, List.append_assoc]⟩

theorem pushFromEdges_edges :
    ∀ (l : List (JsWord × Option JsWord)) (s : Session) (source : CanonPath),
      (pushFromEdges s source l).export_edges
        = s.export_edges
            ++ l.map (fun pr => Export.Named source pr.1 (pr.2.getD pr.1)) := by
  intro l
  induction l with
  | nil => intro s source; simp [pushFromEdges]
  | cons p rest ih =>
    intro s source
    obtain ⟨o, e⟩ := p
    show (pushFromEdges _ source rest).export_edges = _
    rw [ih]
    simp [List.append_assoc]

theorem process_named_export_edges (s : Session) (specs : List ExportSpecifier)
    (src : Option String) (sp : Span) (r : Session)
    (h : process_named_export s specs src sp = .ok r) :
    ∃ t, r.export_edges = s.export_edges ++ t := by
  rcases src with _ | srcStr <;> simp only [process_named_export] at h
  · split at h
    · exact absurd h (by simp)
    · exact absurd h (by simp)
    · rename_i named hp
      injection h with h2
      rw [← h2]
      exact noFromExports_edges named s
  · split at h
    · exact absurd h (by simp)
    · exact absurd h (by simp)
    · rename_i named hp
      split at h
      · rename_i p hd
        injection h with h2
        rw [← h2]
        exact ⟨_, pushFromEdges_edges named s p⟩
      · exact absurd h (by simp)
      · exact absurd h (by simp)

theorem process_module_item_edges (s : Session) (item : ModuleItem) (r : Session)
    (h : process_module_item s item = .ok r) :
    ∃ t, r.export_edges = s.export_edges ++ t := by
  cases item with
  | Stmt st =>
    cases st with
    | Decl d =>
      refine ⟨[], ?_⟩
      rw [process_decl_edges s d false r h, List.append_nil]
    | Other =>
      injection h with h2
      exact ⟨[], by rw [← h2, List.append_nil]⟩
  | ModuleDecl d =>
    cases d <;> simp only [process_module_item, process_module_decl] at h
    case Import src specifiers sp =>
      split at h
      · rename_i p hd
        exact ⟨[], by rw [handleImportSpecs_edges p _ s r h, List.append_nil]⟩
      · exact absurd h (by simp)
      · exact absurd h (by simp)
    case ExportDecl decl =>
      exact ⟨[], by rw [process_decl_edges s decl true r h, List.append_nil]⟩
    case ExportNamed specifiers src sp =>
      exact process_named_export_edges s specifiers src sp r h
    case ExportAll src sp =>
      split at h
      · rename_i p hd
        injection h with h2
        exact ⟨[Export.All p], by rw [← h2]⟩
      · exact absurd h (by simp)
      · exact absurd h (by simp)
    case ExportDefaultDecl sp => exact absurd h (by simp)
    case ExportDefaultExpr sp => exact absurd h (by simp)
    case TsImportEquals sp => exact absurd h (by simp)
    case TsExportAssignment sp => exact absurd h (by simp)
    case TsNamespaceExport sp => exact absurd h (by simp)

theorem processItems_edges :
    ∀ (items : List ModuleItem) (s r : Session),
      processItems s items = .ok r →
        ∃ t, r.export_edges = s.export_edges ++ t := by
  intro items
  induction items with
  | nil =>
    intro s r h
    injection h with h2
    exact ⟨[], by rw [← h2, List.append_nil]⟩
  | cons item rest ih =>
    intro s r h
    simp only [processItems] at h
    split at h
    · rename_i s2 hs
      obtain ⟨t1, h1⟩ := process_module_item_edges s item s2 hs
      obtain ⟨t2, h2⟩ := ih s2 r h
      exact ⟨t1 ++ t2, by rw [h2, h1, List.append_assoc]⟩
    · exact absurd h (by simp)
    · exact absurd h (by simp)

/-- C2 (corrected): graph initialization emits export edges in
source-declaration order — processing a module body only ever appends to
the export-edge list (earlier edges keep their positions), and an
`export { ... } from` declaration appends its `Named` edges in specifier
order.  (Rooted export keys, by contrast, are collected into unordered
sets; the counterexample shows their source order is not carried by the
graph.) -/
theorem c2_edge_order_amended :
    (∀ (s : Session) (items : List ModuleItem) (r : Session),
        processItems s items = .ok r →
          ∃ t, r.export_edges = s.export_edges ++ t)
    ∧ ∀ (s : Session) (source : CanonPath) (named : List (JsWord × Option JsWord)),
        (pushFromEdges s source named).export_edges
          = s.export_edges
              ++ named.map (fun pr => Export.Named source pr.1 (pr.2.getD pr.1)) :=
  ⟨fun s items r h => processItems_edges items s r h,
   fun s source named => pushFromEdges_edges named s source⟩

/-- C2 counterexample: the bodies `export class A; export class B` and
`export class B; export class A` initialize to identical module graphs
(the rooted export keys live in unordered sets and no edges are produced),
while their source-declared export orders differ; hence no observation of
the initialized graph can reproduce the source order of rooted export
keys, and the claimed order-preserving external sequence does not exist. -/
theorem c2_rooted_order_counterexample :
    initModule "/m" [] itemsAB = initModule "/m" [] itemsBA
    ∧ exportKeysInSourceOrder itemsAB = ["A", "B"]
    ∧ exportKeysInSourceOrder itemsBA = ["B", "A"]
    ∧ ∀ obs : PResult BindGenError (ModuleNode × List Export × List Import) → List JsWord,
        ¬ (obs (initModule "/m" [] itemsAB) = exportKeysInSourceOrder itemsAB
            ∧ obs (initModule "/m" [] itemsBA) = exportKeysInSourceOrder itemsBA) := by
  have h1 : initModule "/m" [] itemsAB
      = .ok (⟨"/m", insert "B" (insert "A" ∅), insert "B" (insert "A" ∅)⟩, [], []) := rfl
  have h2 : initModule "/m" [] itemsBA
      = .ok (⟨"/m", insert "A" (insert "B" ∅), insert "A" (insert "B" ∅)⟩, [], []) := rfl
  have hcomm : insert "B" (insert "A" (∅ : Finset String)) = insert "A" (insert "B" ∅) :=
    Finset.Insert.comm "B" "A" ∅
  have heq : initModule "/m" [] itemsAB = initModule "/m" [] itemsBA := by
    rw [h1, h2, hcomm]
  refine ⟨heq, rfl, rfl, ?_⟩
  intro obs hpair
  obtain ⟨h1, h2⟩ := hpair
  rw [heq] at h1
  exact absurd (h1.symm.trans h2) (by decide)

/- ## Traversal lemmas (C3, C4) -/

theorem foldl_push_eq_reverse_map_append :
    ∀ (es : List Export) (rest : List CanonPath),
      es.foldl (fun st e => e.export_source :: st) rest
        = (es.map Export.export_source).reverse ++ rest := by
  intro es
  induction es with
  | nil => intro rest; rfl
  | cons e es ih =>
    intro rest
    simp only [List.foldl, List.map, List.reverse_cons, List.append_assoc]
    rw [ih]
    simp

/-- C3 (corrected): the emission traversal is depth-first from the root
with an explicit stack and suppresses duplicate visits through a visited
set keyed by canonical path — but a visited module's children are pushed
onto the LIFO stack in edge-list order and therefore visited in the
*reverse* of the edge-list order; on the demonstration graph the root's
children `a`, `b` are visited as `b` then `a`. -/
theorem c3_traversal_amended :
    (∀ (nodes : List (CanonPath × TypedModuleNode))
        (edges : List (CanonPath × List Export)) (cfg : EmitConfig)
        (fuel : Nat) (p : CanonPath) (rest vis : List CanonPath),
        vis.contains p = true →
          traverseLoop nodes edges cfg (fuel + 1) (p :: rest) vis
            = traverseLoop nodes edges cfg fuel rest vis)
    ∧ (∀ (nodes : List (CanonPath × TypedModuleNode))
        (edges : List (CanonPath × List Export)) (cfg : EmitConfig)
        (fuel : Nat) (p : CanonPath) (rest vis : List CanonPath)
        (node : TypedModuleNode) (es : List Export),
        vis.contains p = false →
          nodes.lookup p = some node →
          edges.lookup p = some es →
          traverseLoop nodes edges cfg (fuel + 1) (p :: rest) vis
            = prependVisit cfg p node
                (traverseLoop nodes edges cfg fuel
                  ((es.map Export.export_source).reverse ++ rest) (p :: vis)))
    ∧ traverseOrder c3Graph cfgBoth "root" = some ["root", "b", "a"] := by
  refine ⟨?_, ?_, by decide⟩
  · intro nodes edges cfg fuel p rest vis h
    simp only [traverseLoop, h, if_true]
  · intro nodes edges cfg fuel p rest vis node es h hn he
    simp only [traverseLoop, h, Bool.false_eq_true, if_false, hn, he]
    rw [foldl_push_eq_reverse_map_append]

/-- C3 counterexample: on a root whose export-edge list points at `a` then
at `b`, the traversal visits `b` before `a` — not the claimed edge-list
order `root, a, b`. -/
theorem c3_visit_order_counterexample :
    traverseOrder c3Graph cfgBoth "root" = some ["root", "b", "a"]
    ∧ ¬ traverseOrder c3Graph cfgBoth "root" = some ["root", "a", "b"] :=
  ⟨by decide, by decide⟩

theorem traverseLoop_congr (n1 n2 : List (CanonPath × TypedModuleNode))
    (e1 e2 : List (CanonPath × List Export)) (cfg : EmitConfig)
    (hn : ∀ p, n1.lookup p = n2.lookup p)
    (he : ∀ p, e1.lookup p = e2.lookup p) :
    ∀ (fuel : Nat) (stack vis : List CanonPath),
      traverseLoop n1 e1 cfg fuel stack vis = traverseLoop n2 e2 cfg fuel stack vis := by
  intro fuel
  induction fuel with
  | zero => intro stack vis; rfl
  | succ f ih =>
    intro stack vis
    cases stack with
    | nil => rfl
    | cons p rest =>
      by_cases hc : vis.contains p = true
      · simp only [traverseLoop, hc, if_true]
        exact ih rest vis
      · rw [Bool.not_eq_true] at hc
        simp only [traverseLoop, hc, Bool.false_eq_true, if_false]
        rw [hn p, he p]
        rcases n2.lookup p with _ | node <;> rcases e2.lookup p with _ | es <;> simp
        rw [ih]

/-- C4: the emitted JSON is a deterministic function of the pipeline input.
The only run-to-run variation in the emission stage is the bucket order of
its hash maps; for any two association-list representations of the same
node and edge maps (equal under lookup, of equal sizes), the traversal —
and hence any serialization of its output — is byte-for-byte identical.
The typed nodes' rooted maps are ordered (spec §3), so the per-node entry
order is fixed by the input as well. -/
theorem c4_pipeline_deterministic (g1 g2 : TypedGraph) (cfg : EmitConfig)
    (hn : ∀ p, g1.nodes.lookup p = g2.nodes.lookup p)
    (he : ∀ p, g1.export_edges.lookup p = g2.export_edges.lookup p)
    (hln : g1.nodes.length = g2.nodes.length)
    (hle : totalEdgeCount g1 = totalEdgeCount g2) :
    (∀ (fuel : Nat) (stack vis : List CanonPath),
        traverseLoop g1.nodes g1.export_edges cfg fuel stack vis
          = traverseLoop g2.nodes g2.export_edges cfg fuel stack vis)
    ∧ (∀ root, traverse g1 cfg root = traverse g2 cfg root)
    ∧ ∀ (root : CanonPath) (ser : Option (List CanonPath × List EmitEvent) → String),
        ser (traverse g1 cfg root) = ser (traverse g2 cfg root) := by
  have hloop := traverseLoop_congr g1.nodes g2.nodes g1.export_edges g2.export_edges cfg hn he
  have hfuel : fuelOf g1 = fuelOf g2 := by
    unfold fuelOf
    rw [hln, hle]
  have htrav : ∀ root, traverse g1 cfg root = traverse g2 cfg root := by
    intro root
    unfold traverse
    rw [hfuel]
    exact hloop (fuelOf g2) [root] []
  exact ⟨hloop, htrav, fun root ser => congrArg ser (htrav root)⟩

theorem c4_lookup_nodes : ∀ p, c4G1.nodes.lookup p = c4G2.nodes.lookup p := by
  intro p
  show List.lookup p [("a", c4NodeA), ("b", c4NodeB)]
      = List.lookup p [("b", c4NodeB), ("a", c4NodeA)]
  by_cases h1 : p = "a"
  · subst h1; rfl
  · by_cases h2 : p = "b"
    · subst h2; rfl
    · have ha : (p == "a") = false := beq_eq_false_iff_ne.mpr h1
      have hb : (p == "b") = false := beq_eq_false_iff_ne.mpr h2
      simp [List.lookup, ha, hb]

theorem c4_lookup_edges : ∀ p, c4G1.export_edges.lookup p = c4G2.export_edges.lookup p := by
  intro p
  show List.lookup p [("a", [Export.NamedValue "b" "k" "k"]), ("b", [])]
      = List.lookup p [("b", []), ("a", [Export.NamedValue "b" "k" "k"])]
  by_cases h1 : p = "a"
  · subst h1; rfl
  · by_cases h2 : p = "b"
    · subst h2; rfl
    · have ha : (p == "a") = false := beq_eq_false_iff_ne.mpr h1
      have hb : (p == "b") = false := beq_eq_false_iff_ne.mpr h2
      simp [List.lookup, ha, hb]

/-- C4 witness: on two permuted association-list representations of the
same two-module typed graph, the traversal from the root produces the same
output. -/
theorem c4_pipeline_deterministic_witness :
    traverse c4G1 cfgBoth "a" = traverse c4G2 cfgBoth "a" :=
  (c4_pipeline_deterministic c4G1 c4G2 cfgBoth c4_lookup_nodes c4_lookup_edges
    rfl rfl).2.1 "a"

end Plank
